import Mathlib

/-!
Verification of the `users.rs` resource API core (list / get-by-id / create for
a `User` entity, guarded by a bearer-token middleware, with input validation
and typed error responses).

The Rust source is shallowly embedded: pure Rust functions become Lean
functions, the SQL queries of the store gateway become explicit functions on a
store state (a list of rows), the Actix middleware `call` becomes a function
from the request, the call-time environment and the wrapped inner service to a
response paired with the resulting store state.  Rust `&str` values are
embedded as Lean `String` (a list of characters); the byte/char distinction is
noted where it matters.
-/

namespace Swarmussy

/-! ## Character and string helpers -/

/-- Embedding of Rust `str::starts_with` on character lists.  The middleware
only ever uses it with the pure-ASCII pattern "Bearer ", for which the
byte-level check of Rust and this character-level check agree. -/
def startsWithChars : List Char → List Char → Bool
  | _, [] => true
  | [], _ :: _ => false
  | c :: cs, q :: qs => c == q && startsWithChars cs qs

/-- Embedding of Rust `str::trim` (source: `input.name.trim()`): remove
whitespace characters from both ends.  `Char.isWhitespace` models the
whitespace class for the ASCII range. -/
def rustTrim (s : String) : String :=
  ⟨((s.data.dropWhile Char.isWhitespace).reverse.dropWhile Char.isWhitespace).reverse⟩

/-- All ways of writing `cs` as `l ++ c :: r`: used to give the email regex its
nondeterministic-concatenation semantics. -/
def splitsAt (c : Char) : List Char → List (List Char × List Char)
  | [] => []
  | x :: xs =>
    (if x == c then [(([] : List Char), xs)] else []) ++
      (splitsAt c xs).map (fun p => (x :: p.1, p.2))

/-- A character matched by the regex class `[^\s@]`: not whitespace and not
an at-sign. -/
def atomChar (c : Char) : Bool := !c.isWhitespace && c != '@'

/-- Embedding of `EMAIL_REGEX = ^[^\s@]+@[^\s@]+\.[^\s@]+$` (source lines
77-79): the whole string decomposes as `local ++ '@' ++ a ++ '.' ++ b` with
`local`, `a`, `b` nonempty runs of `[^\s@]` characters. -/
def emailRegexMatch (cs : List Char) : Bool :=
  (splitsAt '@' cs).any fun ld =>
    (!ld.1.isEmpty) && ld.1.all atomChar &&
      ((splitsAt '.' ld.2).any fun ab =>
        (!ab.1.isEmpty) && ab.1.all atomChar && (!ab.2.isEmpty) && ab.2.all atomChar)

/-- `EMAIL_REGEX.is_match(s)` on a Rust string. -/
def emailRegexIsMatch (s : String) : Bool := emailRegexMatch s.data

/-- The email shape as the specification words it: "non-whitespace local-part
`@` non-whitespace domain-part containing a `.`", with a single `@`
separator.  This is the spec-side definition used to compare the claimed
acceptance condition with the code's regex. -/
def specEmailShape (s : String) : Bool :=
  (splitsAt '@' s.data).any fun ld =>
    (!ld.1.isEmpty) && ld.1.all (fun c => !c.isWhitespace && c != '@') &&
      (!ld.2.isEmpty) && ld.2.all (fun c => !c.isWhitespace && c != '@') &&
      ld.2.contains '.'

/-! ## Data model (source lines 43-63) -/

/-- `uuid::Uuid`: a 128-bit identifier, embedded as its numeric value. -/
structure Uuid where
  val : Nat
deriving DecidableEq

/-- `chrono::DateTime<Utc>`: seconds since the Unix epoch plus a
subsecond-nanosecond part. -/
structure Timestamp where
  secs : Int
  nanos : Nat
deriving DecidableEq

/-- The persisted `User` row. -/
structure User where
  id : Uuid
  name : String
  email : String
  created_at : Timestamp
deriving DecidableEq

/-- The inbound `NewUser` payload. -/
structure NewUser where
  name : String
  email : String
deriving DecidableEq

/-- The outbound `UserResponse`: always exactly these four fields, all
strings. -/
structure UserResponse where
  id : String
  name : String
  email : String
  created_at : String
deriving DecidableEq

/-! ## Validation (source lines 81-92) -/

def NAME_MIN_LEN : Nat := 1

/-- Embedding of `validate_new_user`.  `input.name.trim().len() < NAME_MIN_LEN`
compares a byte length against 1, which holds exactly when the trimmed string
is empty, so the character-count comparison used here agrees with it. -/
def validate_new_user (input : NewUser) : Except (List String) Unit :=
  let errors : List String := []
  let errors :=
    if (rustTrim input.name).length < NAME_MIN_LEN then errors ++ ["name_required"]
    else errors
  let errors :=
    if !emailRegexIsMatch input.email then errors ++ ["email_invalid"] else errors
  if errors.isEmpty then Except.ok () else Except.error errors

/-! ## Response shaping (source lines 57-74) -/

/-- Lowercase hexadecimal digit. -/
def hexDigitChar (n : Nat) : Char :=
  if n < 10 then Char.ofNat (48 + n) else Char.ofNat (87 + n)

/-- `w` lowercase hexadecimal digits of `n`, most significant first. -/
def hexPad : Nat → Nat → List Char
  | 0, _ => []
  | w + 1, n => hexPad w (n / 16) ++ [hexDigitChar (n % 16)]

/-- Embedding of `uuid::Uuid::to_string`: the canonical hyphenated lowercase
8-4-4-4-12 hexadecimal rendering of the 128-bit value. -/
def uuidToString (u : Uuid) : String :=
  let n := u.val % 2 ^ 128
  ⟨hexPad 8 (n / 2 ^ 96) ++ '-' ::
    (hexPad 4 (n / 2 ^ 80 % 2 ^ 16) ++ '-' ::
      (hexPad 4 (n / 2 ^ 64 % 2 ^ 16) ++ '-' ::
        (hexPad 4 (n / 2 ^ 48 % 2 ^ 16) ++ '-' :: hexPad 12 (n % 2 ^ 48))))⟩

/-- Decimal digits of a natural number. -/
def natDec (n : Nat) : List Char := Nat.toDigits 10 n

/-- Left-pad a digit run with zeros to width `w`. -/
def padLeftZeros (w : Nat) (ds : List Char) : List Char :=
  List.replicate (w - ds.length) '0' ++ ds

/-- Two decimal digits. -/
def pad2 (n : Nat) : List Char := padLeftZeros 2 (natDec n)

/-- Civil date (year, month, day) from days since the Unix epoch, the standard
era-based algorithm used by calendar libraries; floor division handles
pre-epoch days. -/
def civilFromDays (z0 : Int) : Int × Nat × Nat :=
  let z := z0 + 719468
  let era := z.fdiv 146097
  let doe := (z - era * 146097).toNat
  let yoe := (doe - doe / 1460 + doe / 36524 - doe / 146096) / 365
  let y := (yoe : Int) + era * 400
  let doy := doe - (365 * yoe + yoe / 4 - yoe / 100)
  let mp := (5 * doy + 2) / 153
  let d := doy - (153 * mp + 2) / 5 + 1
  let m := if mp < 10 then mp + 3 else mp - 9
  (if m ≤ 2 then y + 1 else y, m, d)

/-- Decimal rendering of a year, zero-padded to at least four digits, with a
leading minus sign for negative years. -/
def yearChars (y : Int) : List Char :=
  if y < 0 then '-' :: padLeftZeros 4 (natDec (-y).toNat) else padLeftZeros 4 (natDec y.toNat)

/-- The `yyyy-mm-dd` date part of the RFC 3339 rendering of `t`. -/
def rfcDate (t : Timestamp) : List Char :=
  let c := civilFromDays (t.secs.fdiv 86400)
  yearChars c.1 ++ '-' :: (pad2 c.2.1 ++ '-' :: pad2 c.2.2)

/-- The `hh:mm:ss` time part of the RFC 3339 rendering of `t`. -/
def rfcTime (t : Timestamp) : List Char :=
  let sod := (t.secs.fmod 86400).toNat
  pad2 (sod / 3600) ++ ':' :: (pad2 (sod % 3600 / 60) ++ ':' :: pad2 (sod % 60))

/-- The fractional-second part of the RFC 3339 rendering: chrono's `AutoSi`
profile prints nothing for zero nanoseconds and otherwise a dot followed by
exactly 3, 6 or 9 digits, whichever is the shortest exact rendering. -/
def rfcFrac (t : Timestamp) : List Char :=
  if t.nanos == 0 then []
  else if t.nanos % 1000000 == 0 then '.' :: padLeftZeros 3 (natDec (t.nanos / 1000000))
  else if t.nanos % 1000 == 0 then '.' :: padLeftZeros 6 (natDec (t.nanos / 1000))
  else '.' :: padLeftZeros 9 (natDec t.nanos)

/-- Embedding of `chrono::DateTime<Utc>::to_rfc3339`: date, `T`, time,
optional fraction, and the fixed UTC offset `+00:00`. -/
def toRfc3339 (t : Timestamp) : String :=
  ⟨rfcDate t ++ 'T' :: (rfcTime t ++ (rfcFrac t ++ "+00:00".data))⟩

/-- Embedding of `impl From<User> for UserResponse` (source lines 65-74). -/
def userResponseOfUser (u : User) : UserResponse :=
  { id := uuidToString u.id
    name := u.name
    email := u.email
    created_at := toRfc3339 u.created_at }

/-! ## Wire representation -/

/-- The JSON values this module ever serializes. -/
inductive Json where
  | jstr : String → Json
  | jarr : List Json → Json
  | jobj : List (String × Json) → Json

/-- An HTTP response: status code and JSON body. -/
structure Resp where
  status : Nat
  body : Json

def unauthorizedBody : Json := Json.jobj [("error", Json.jstr "unauthorized")]

def notFoundBody : Json := Json.jobj [("error", Json.jstr "not_found")]

def validationFailedBody (errs : List String) : Json :=
  Json.jobj [("error", Json.jstr "validation_failed"), ("details", Json.jarr (errs.map Json.jstr))]

/-- serde serialization of a `UserResponse`. -/
def userResponseJson (r : UserResponse) : Json :=
  Json.jobj
    [("id", Json.jstr r.id), ("name", Json.jstr r.name), ("email", Json.jstr r.email),
      ("created_at", Json.jstr r.created_at)]

/-! ## Store gateway: the three SQL queries as functions of the table state -/

/-- The errors sqlx surfaces to this module: `RowNotFound` from `fetch_one`,
and the database uniqueness-constraint violation on insert. -/
inductive SqlxError where
  | rowNotFound
  | uniqueViolation
deriving DecidableEq

/-- The `users` table: one row per User. -/
abbrev Store := List User

/-- `SELECT ... FROM users WHERE id = $1`: the row with the given id, if
any. -/
def storeGetById (st : Store) (id : Uuid) : Option User :=
  st.find? (fun u => u.id == id)

/-- `fetch_one` of the get-by-id query: `RowNotFound` when no row matched. -/
def getUserQuery (st : Store) (id : Uuid) : Except SqlxError User :=
  match storeGetById st id with
  | some u => Except.ok u
  | none => Except.error SqlxError.rowNotFound

/-- `INSERT INTO users (name, email) VALUES ($1, $2) RETURNING ...`: the
UNIQUE constraint on `email` rejects a duplicate; otherwise the store
generates `id` and `created_at` (parameters `fresh` and `now`) and the new
row is appended. -/
def createUserQuery (st : Store) (nm em : String) (fresh : Uuid) (now : Timestamp) :
    Except SqlxError (User × Store) :=
  if st.any (fun u => u.email == em) then Except.error SqlxError.uniqueViolation
  else
    let u : User := { id := fresh, name := nm, email := em, created_at := now }
    Except.ok (u, st ++ [u])

/-- The comparison realized by `ORDER BY created_at DESC`. -/
def createdDesc (a b : User) : Prop :=
  b.created_at.secs * 1000000000 + (b.created_at.nanos : Int) ≤
    a.created_at.secs * 1000000000 + (a.created_at.nanos : Int)

instance : DecidableRel createdDesc := fun _ _ => inferInstanceAs (Decidable (_ ≤ _))

instance : IsTotal User createdDesc := ⟨fun _ _ => le_total _ _⟩

instance : IsTrans User createdDesc := ⟨fun _ _ _ hab hbc => le_trans hbc hab⟩

/-- `SELECT ... FROM users ORDER BY created_at DESC` via `fetch_all`: every
row, sorted by `created_at` descending. -/
def listUsersQuery (st : Store) : List User := List.insertionSort createdDesc st

/-- `ActixError::from` applied to a store error (the single uniform `map_err`
arm of the handlers): a 500 server-error response carrying only the error's
display text. -/
def sqlxErrorText : SqlxError → String
  | SqlxError.rowNotFound => "no rows returned by a query that expected to return at least one row"
  | SqlxError.uniqueViolation => "error returned from database: duplicate key value violates unique constraint"

def actixErrorResp (e : SqlxError) : Resp := { status := 500, body := Json.jstr (sqlxErrorText e) }

/-! ## Handlers (source lines 195-260) -/

/-- `list_users`: fetch all rows ordered by `created_at DESC`, shape each one,
respond 200. -/
def list_users (st : Store) : Resp :=
  { status := 200
    body := Json.jarr ((listUsersQuery st).map (fun u => userResponseJson (userResponseOfUser u))) }

/-- `get_user`: fetch one row by id; `RowNotFound` becomes the 404
`not_found` body, any other query error the uniform conversion; a row becomes
200 with the shaped record. -/
def get_user (st : Store) (id : Uuid) : Resp :=
  match getUserQuery st id with
  | Except.error e =>
    if e == SqlxError.rowNotFound then { status := 404, body := notFoundBody }
    else actixErrorResp e
  | Except.ok u => { status := 200, body := userResponseJson (userResponseOfUser u) }

/-- `create_user`: validate, short-circuit to 400 `validation_failed` on any
violation, otherwise insert; every insert error goes through the one uniform
`map_err` arm, and success responds 201 with the shaped new row. -/
def create_user (st : Store) (payload : NewUser) (fresh : Uuid) (now : Timestamp) :
    Resp × Store :=
  match validate_new_user payload with
  | Except.error errs => ({ status := 400, body := validationFailedBody errs }, st)
  | Except.ok () =>
    match createUserQuery st payload.name payload.email fresh now with
    | Except.error e => (actixErrorResp e, st)
    | Except.ok (u, st2) =>
      ({ status := 201, body := userResponseJson (userResponseOfUser u) }, st2)

/-! ## Auth middleware (source lines 103-177) -/

/-- A raw `Authorization` header value; `toStr` models
`HeaderValue::to_str`, which fails on bytes outside visible ASCII. -/
inductive HeaderValue where
  | valid (s : String)
  | invalid
deriving DecidableEq

def HeaderValue.toStr : HeaderValue → Option String
  | HeaderValue.valid s => some s
  | HeaderValue.invalid => none

/-- The characters of the literal "Bearer " checked by `starts_with`. -/
def bearerPat : List Char := "Bearer ".data

/-- The characters of the hard-coded accepted token. -/
def testToken : List Char := "test-token".data

/-- The token check of `AuthGuardMiddleware::call` on a decoded header string:
`s.starts_with("Bearer ")`, then the token `&s[7..]` (the pattern is 7 ASCII
bytes, so byte offset 7 is character offset 7) compared against the literal
`"test-token"` or the call-time value of the `AUTH_TOKEN` environment
variable. -/
def strTokenOk (s : String) (env : Option String) : Bool :=
  if startsWithChars s.data bearerPat then
    let token := s.data.drop 7
    (token == testToken) ||
      (match env with
        | some e => e.data == token
        | none => false)
  else false

/-- Total-embedding variant in which the slice `&s[7..]` returns an `Option`:
`none` is the out-of-bounds (panicking) branch. -/
def strSliceFrom (cs : List Char) (i : Nat) : Option (List Char) :=
  if i ≤ cs.length then some (cs.drop i) else none

/-- The token check with the guarded slice made explicit: `none` means the
slice was evaluated out of bounds. -/
def strTokenOkOpt (s : String) (env : Option String) : Option Bool :=
  if startsWithChars s.data bearerPat then
    match strSliceFrom s.data 7 with
    | none => none
    | some token =>
      some ((token == testToken) ||
        (match env with
          | some e => e.data == token
          | none => false))
  else some false

/-- The header inspection of `AuthGuardMiddleware::call`: absent header or
undecodable header value fail; otherwise the token check decides. -/
def authHeaderOk (hdr : Option HeaderValue) (env : Option String) : Bool :=
  match hdr with
  | some hv =>
    match hv.toStr with
    | some s => strTokenOk s env
    | none => false
  | none => false

/-! ## Routing (source lines 182-190) -/

/-- The three routes of the `/users` scope, after path matching and extractor
parsing. -/
inductive Endpoint where
  | listEp
  | getEp (id : Uuid)
  | createEp (body : NewUser)
deriving DecidableEq

/-- A request that reached the `/users` scope: the matched route plus the raw
`Authorization` header. -/
structure UsersRequest where
  endpoint : Endpoint
  authHeader : Option HeaderValue
deriving DecidableEq

/-- Route dispatch inside the scope.  `fresh` and `now` are the
store-generated id and timestamp a create would use. -/
def dispatch (e : Endpoint) (st : Store) (fresh : Uuid) (now : Timestamp) : Resp × Store :=
  match e with
  | Endpoint.listEp => (list_users st, st)
  | Endpoint.getEp id => (get_user st id, st)
  | Endpoint.createEp body => create_user st body fresh now

def unauthorizedResp : Resp := { status := 401, body := unauthorizedBody }

/-- The middleware's accept/reject decision for a request, given the call-time
value of the `AUTH_TOKEN` environment variable (read inside `call`). -/
def authDecisionReq (req : UsersRequest) (env : Option String) : Bool :=
  authHeaderOk req.authHeader env

/-- `AuthGuardMiddleware::call`: forward to the wrapped inner service when the
token check passes, otherwise answer 401 `unauthorized` without touching the
inner service or the store. -/
def authGuardCall (env : Option String) (inner : Endpoint → Store → Resp × Store)
    (req : UsersRequest) (st : Store) : Resp × Store :=
  if authDecisionReq req env then inner req.endpoint st else (unauthorizedResp, st)

/-- The `/users` scope as configured in `config`: `AuthGuard` wrapped around
the three-route dispatcher. -/
def usersService (env : Option String) (req : UsersRequest) (st : Store) (fresh : Uuid)
    (now : Timestamp) : Resp × Store :=
  authGuardCall env (fun e s => dispatch e s fresh now) req st

instance {e a : Type} [DecidableEq e] [DecidableEq a] : DecidableEq (Except e a) := fun x y =>
  match x, y with
  | Except.ok v, Except.ok w => decidable_of_iff (v = w) (by simp)
  | Except.error v, Except.error w => decidable_of_iff (v = w) (by simp)
  | Except.ok _, Except.error _ => isFalse (by simp)
  | Except.error _, Except.ok _ => isFalse (by simp)

/-! ## Helper lemmas -/

theorem startsWithChars_iff (s p : List Char) :
    startsWithChars s p = true ↔ ∃ t, s = p ++ t := by
  induction p generalizing s with
  | nil => simp [startsWithChars]
  | cons q qs ih =>
    cases s with
    | nil =>
      simp only [startsWithChars, List.cons_append]
      constructor
      · intro h; exact absurd h (by simp)
      · rintro ⟨t, ht⟩; exact absurd ht (by simp)
    | cons c cs =>
      simp only [startsWithChars, Bool.and_eq_true, beq_iff_eq, ih, List.cons_append]
      constructor
      · rintro ⟨rfl, t, rfl⟩; exact ⟨t, rfl⟩
      · rintro ⟨t, ht⟩
        obtain ⟨rfl, rfl⟩ : c = q ∧ cs = qs ++ t := by
          constructor <;> [exact (List.cons.injEq .. ▸ ht).1; exact (List.cons.injEq .. ▸ ht).2]
        exact ⟨rfl, t, rfl⟩

theorem dropLenAppend (p t : List Char) : (p ++ t).drop p.length = t := by
  induction p with
  | nil => simp
  | cons c cs ih => simp [ih]

theorem splitsAt_mem (c : Char) (cs : List Char) (l r : List Char) :
    (l, r) ∈ splitsAt c cs ↔ cs = l ++ c :: r := by
  induction cs generalizing l with
  | nil => simp [splitsAt]
  | cons x xs ih =>
    simp only [splitsAt, List.mem_append, List.mem_map]
    constructor
    · rintro (hmem | ⟨p, hp, hpe⟩)
      · by_cases hxc : x = c
        · simp only [hxc, beq_self_eq_true, if_true, List.mem_singleton, Prod.mk.injEq] at hmem
          obtain ⟨rfl, rfl⟩ := hmem
          simp [hxc]
        · simp [show (x == c) = false from beq_eq_false_iff_ne.mpr hxc] at hmem
      · obtain ⟨rfl, rfl⟩ : x :: p.1 = l ∧ p.2 = r := by
          constructor <;> [exact (Prod.mk.injEq .. ▸ hpe).1; exact (Prod.mk.injEq .. ▸ hpe).2]
        have := (ih p.1).mp hp
        simp [this]
    · intro hcs
      cases l with
      | nil =>
        obtain ⟨rfl, rfl⟩ : x = c ∧ xs = r := by
          constructor <;> [exact (List.cons.injEq .. ▸ hcs).1; exact (List.cons.injEq .. ▸ hcs).2]
        left; simp
      | cons y l2 =>
        obtain ⟨rfl, hxs⟩ : x = y ∧ xs = l2 ++ c :: r := by
          constructor <;> [exact (List.cons.injEq .. ▸ hcs).1; exact (List.cons.injEq .. ▸ hcs).2]
        right
        exact ⟨(l2, r), (ih l2).mpr hxs, rfl⟩

theorem strTokenOk_iff (s : String) (env : Option String) :
    strTokenOk s env = true ↔
      ∃ tok, s.data = bearerPat ++ tok ∧
        (tok = testToken ∨ ∃ e, env = some e ∧ e.data = tok) := by
  unfold strTokenOk
  cases hpre : startsWithChars s.data bearerPat with
  | false =>
    simp only [hpre, Bool.false_eq_true, if_false]
    constructor
    · intro h; cases h
    · rintro ⟨tok, htok, -⟩
      have h2 : startsWithChars s.data bearerPat = true :=
        (startsWithChars_iff s.data bearerPat).mpr ⟨tok, htok⟩
      rw [hpre] at h2; cases h2
  | true =>
    obtain ⟨t, ht⟩ := (startsWithChars_iff s.data bearerPat).mp hpre
    have hdrop : s.data.drop 7 = t := by
      have h7 : (7 : Nat) = bearerPat.length := by decide
      rw [ht, h7, dropLenAppend]
    have huniq : ∀ tok : List Char, s.data = bearerPat ++ tok → tok = t := by
      intro tok htok
      have hc := congrArg (fun l => List.drop bearerPat.length l) (htok.symm.trans ht)
      simpa [dropLenAppend] using hc
    cases env with
    | none =>
      simp only [hpre, hdrop, if_true, Bool.or_false, beq_iff_eq]
      constructor
      · intro h; exact ⟨t, ht, Or.inl h⟩
      · rintro ⟨tok, htok, hcond⟩
        rcases hcond with rfl | ⟨e, he, -⟩
        · exact (huniq _ htok).symm
        · cases he
    | some e =>
      simp only [hpre, hdrop, if_true, Bool.or_eq_true, beq_iff_eq]
      constructor
      · intro h
        rcases h with h1 | h2
        · exact ⟨t, ht, Or.inl h1⟩
        · exact ⟨t, ht, Or.inr ⟨e, rfl, h2⟩⟩
      · rintro ⟨tok, htok, hcond⟩
        have htt := huniq tok htok
        rcases hcond with rfl | ⟨e2, he2, hm⟩
        · exact Or.inl htt.symm
        · cases he2; exact Or.inr (htt ▸ hm)

/-! ## Claim theorems -/

/-- C2: `validate_new_user` is total and fully characterized: it succeeds
exactly when the trimmed name has length at least 1 and the email passes the
regex check; on failure it returns exactly the codes of all failed checks,
accumulated in the fixed order `name_required` before `email_invalid`; in
particular a blank name together with an invalid email yields exactly
`["name_required", "email_invalid"]`. -/
theorem validate_new_user_characterization (input : NewUser) :
    (validate_new_user input = Except.ok () ↔
      NAME_MIN_LEN ≤ (rustTrim input.name).length ∧
        emailRegexIsMatch input.email = true) ∧
    (∀ errs, validate_new_user input = Except.error errs →
      errs =
        (if (rustTrim input.name).length < NAME_MIN_LEN then ["name_required"] else []) ++
          (if emailRegexIsMatch input.email then [] else ["email_invalid"])) ∧
    ((rustTrim input.name).length < NAME_MIN_LEN →
      emailRegexIsMatch input.email = false →
      validate_new_user input = Except.error ["name_required", "email_invalid"]) := by
  unfold validate_new_user NAME_MIN_LEN
  by_cases h1 : (rustTrim input.name).length < 1 <;>
    cases h2 : emailRegexIsMatch input.email <;>
      (simp [h1, h2]; all_goals omega)

/-- C2 witness: the blank-name, invalid-email instance yields exactly both
codes in order. -/
theorem validate_new_user_characterization_witness :
    validate_new_user ⟨"", "not-an-email"⟩ = Except.error ["name_required", "email_invalid"] :=
  (validate_new_user_characterization ⟨"", "not-an-email"⟩).2.2 (by decide) (by decide)

/-- C5 counterexample: `"a@.b"` has a non-whitespace local part, a single `@`,
and a non-whitespace domain part containing a dot — the shape the claim says
is accepted — yet the code's regex rejects it, because the regex requires at
least one `[^\s@]` character on each side of a dot in the domain. -/
theorem email_shape_counterexample :
    specEmailShape "a@.b" = true ∧ emailRegexIsMatch "a@.b" = false := by
  constructor
  · decide
  · decide

/-- C5 amended: the email check accepts a string exactly when it decomposes as
`local ++ "@" ++ a ++ "." ++ b` with `local`, `a` and `b` nonempty runs of
non-whitespace, non-`@` characters — i.e. the domain must contain a dot that
is neither its first nor its last character. -/
theorem email_regex_characterization (s : String) :
    emailRegexIsMatch s = true ↔
      ∃ l a b : List Char, s.data = l ++ '@' :: (a ++ '.' :: b) ∧
        l ≠ [] ∧ a ≠ [] ∧ b ≠ [] ∧
        l.all atomChar = true ∧ a.all atomChar = true ∧ b.all atomChar = true := by
  unfold emailRegexIsMatch emailRegexMatch
  rw [List.any_eq_true]
  constructor
  · rintro ⟨⟨l, d⟩, hmem, hpred⟩
    rw [splitsAt_mem] at hmem
    simp only [Bool.and_eq_true, Bool.not_eq_true', List.any_eq_true,
      List.isEmpty_eq_false] at hpred
    obtain ⟨⟨hlne, hlatom⟩, ⟨a, b⟩, hmem2, ⟨⟨⟨hane, haatom⟩, hbne⟩, hbatom⟩⟩ := hpred
    rw [splitsAt_mem] at hmem2
    refine ⟨l, a, b, ?_, hlne, hane, hbne, hlatom, haatom, hbatom⟩
    rw [hmem, hmem2]
  · rintro ⟨l, a, b, hs, hl, ha, hb, hla, haa, hba⟩
    refine ⟨(l, a ++ '.' :: b), (splitsAt_mem _ _ _ _).mpr hs, ?_⟩
    simp only [Bool.and_eq_true, Bool.not_eq_true', List.any_eq_true,
      List.isEmpty_eq_false]
    exact ⟨⟨hl, hla⟩, (a, b), (splitsAt_mem _ _ _ _).mpr rfl, ⟨⟨⟨ha, haa⟩, hb⟩, hba⟩⟩

/-- C10: the slice `&s[7..]` is evaluated only under the `starts_with`
guard, which guarantees at least 7 bytes, so the Option-returning embedding of
the token check never reaches the out-of-bounds branch and agrees with the
total check on every header string. -/
theorem auth_slice_guarded (s : String) (env : Option String) :
    strTokenOkOpt s env = some (strTokenOk s env) ∧
    (startsWithChars s.data bearerPat = true → strSliceFrom s.data 7 ≠ none) := by
  have hlen : startsWithChars s.data bearerPat = true → 7 ≤ s.data.length := by
    intro h
    obtain ⟨t, ht⟩ := (startsWithChars_iff _ _).mp h
    rw [ht, List.length_append]
    have h7 : bearerPat.length = 7 := by decide
    omega
  constructor
  · unfold strTokenOkOpt strTokenOk strSliceFrom
    cases hpre : startsWithChars s.data bearerPat with
    | false => simp [hpre]
    | true =>
      have hl2 : 7 ≤ s.length := hlen hpre
      simp [hpre, hl2, hlen hpre]
  · intro h
    unfold strSliceFrom
    have hl2 : 7 ≤ s.length := hlen h
    simp [hl2, hlen h]

/-- C10 witness: a concrete bearer header exercises the guarded slice. -/
theorem auth_slice_guarded_witness :
    strTokenOkOpt "Bearer abc" none = some (strTokenOk "Bearer abc" none) ∧
    strSliceFrom "Bearer abc".data 7 ≠ none :=
  ⟨(auth_slice_guarded "Bearer abc" none).1,
    (auth_slice_guarded "Bearer abc" none).2 (by decide)⟩

/-- C6: get-by-id maps a missing row to the distinguished 404 `not_found`
response — never a generic server error — and an existing row to 200 with the
record mapped through the response shaper. -/
theorem get_user_not_found_or_found (st : Store) (id : Uuid) :
    (storeGetById st id = none → get_user st id = { status := 404, body := notFoundBody }) ∧
    (∀ u, storeGetById st id = some u →
      get_user st id = { status := 200, body := userResponseJson (userResponseOfUser u) }) ∧
    ((get_user st id).status = 404 ∨ (get_user st id).status = 200) := by
  unfold get_user getUserQuery
  cases h : storeGetById st id with
  | none => simp
  | some u => simp

/-- C6 witness: concrete missing and present identifiers. -/
theorem get_user_not_found_or_found_witness :
    get_user [] ⟨0⟩ = { status := 404, body := notFoundBody } ∧
    get_user [⟨⟨1⟩, "Bob", "bob@example.com", ⟨0, 0⟩⟩] ⟨1⟩ =
      { status := 200,
        body := userResponseJson (userResponseOfUser ⟨⟨1⟩, "Bob", "bob@example.com", ⟨0, 0⟩⟩) } :=
  ⟨(get_user_not_found_or_found [] ⟨0⟩).1 (by decide),
    (get_user_not_found_or_found [⟨⟨1⟩, "Bob", "bob@example.com", ⟨0, 0⟩⟩] ⟨1⟩).2.1 _ (by decide)⟩

/-- C7: the response shaper is a total pure mapping producing exactly the four
fields id, name, email, created_at for every User: id rendered as the
canonical string form, name and email copied unchanged, created_at rendered as
date, `T`, time, an optional exact fraction and the fixed UTC offset
`+00:00`; a whole-second timestamp carries no fractional part at all. -/
theorem userResponse_shape (u : User) :
    userResponseOfUser u =
      { id := uuidToString u.id, name := u.name, email := u.email,
        created_at := toRfc3339 u.created_at } ∧
    (toRfc3339 u.created_at).data =
      rfcDate u.created_at ++ 'T' ::
        (rfcTime u.created_at ++ (rfcFrac u.created_at ++ "+00:00".data)) ∧
    (u.created_at.nanos = 0 → rfcFrac u.created_at = []) := by
  refine ⟨rfl, rfl, ?_⟩
  intro h
  unfold rfcFrac
  simp [h]

/-- C7 witness: a whole-second timestamp renders without a fraction. -/
theorem userResponse_shape_witness : rfcFrac ⟨0, 0⟩ = [] :=
  (userResponse_shape ⟨⟨0⟩, "Ann", "ann@example.com", ⟨0, 0⟩⟩).2.2 rfl

/-- C8: list responds 200 with every stored record, ordered by `created_at`
descending and mapped through the shaper; the empty store yields 200 with an
empty array, never an error. -/
theorem list_users_ok (st : Store) :
    (∃ l, l.Perm st ∧ List.Sorted createdDesc l ∧
      list_users st =
        { status := 200,
          body := Json.jarr (l.map (fun u => userResponseJson (userResponseOfUser u))) }) ∧
    list_users [] = { status := 200, body := Json.jarr [] } :=
  ⟨⟨listUsersQuery st, List.perm_insertionSort _ _, List.sorted_insertionSort _ _, rfl⟩, rfl⟩

/-- C3: create short-circuits on any validation violation with 400 and the
`validation_failed` body listing every violation found, leaving the store
state unchanged and producing the same response whatever the store holds (no
insert is attempted); only when validation succeeds does the insert run, and
an insert success responds 201 with the shaped new record. -/
theorem create_user_validation_gate (st : Store) (p : NewUser) (fresh : Uuid) (now : Timestamp) :
    (∀ errs, validate_new_user p = Except.error errs →
      create_user st p fresh now = ({ status := 400, body := validationFailedBody errs }, st) ∧
      ∀ st2, (create_user st2 p fresh now).1 = (create_user st p fresh now).1) ∧
    (validate_new_user p = Except.ok () →
      ∀ u st2, createUserQuery st p.name p.email fresh now = Except.ok (u, st2) →
        create_user st p fresh now =
          ({ status := 201, body := userResponseJson (userResponseOfUser u) }, st2)) := by
  constructor
  · intro errs herr
    constructor
    · unfold create_user
      rw [herr]
    · intro st2
      unfold create_user
      rw [herr]
  · intro hok u st2 hq
    unfold create_user
    rw [hok, hq]

/-- C3 witness: an invalid payload is rejected with both codes and an empty
store stays empty, and a valid payload on the empty store is inserted and
answered 201. -/
theorem create_user_validation_gate_witness :
    create_user [] ⟨"", "nope"⟩ ⟨7⟩ ⟨0, 0⟩ =
      ({ status := 400, body := validationFailedBody ["name_required", "email_invalid"] }, []) ∧
    create_user [] ⟨"Bob", "bob@example.com"⟩ ⟨1⟩ ⟨0, 0⟩ =
      ({ status := 201,
          body := userResponseJson (userResponseOfUser ⟨⟨1⟩, "Bob", "bob@example.com", ⟨0, 0⟩⟩) },
        [⟨⟨1⟩, "Bob", "bob@example.com", ⟨0, 0⟩⟩]) :=
  ⟨((create_user_validation_gate [] ⟨"", "nope"⟩ ⟨7⟩ ⟨0, 0⟩).1 _ (by decide)).1,
    (create_user_validation_gate [] ⟨"Bob", "bob@example.com"⟩ ⟨1⟩ ⟨0, 0⟩).2 (by decide) _ _
      (by decide)⟩

/-- C4 counterexample: with Bob already stored, creating another user with
Bob's email makes the insert fail on the uniqueness constraint and the handler
answers status 500 — the uniform server-class conversion — not a client-class
(4xx) conflict response as the claim states. -/
theorem create_conflict_counterexample :
    ¬(400 ≤ (create_user [⟨⟨1⟩, "Bob", "bob@example.com", ⟨0, 0⟩⟩]
          ⟨"Carol", "bob@example.com"⟩ ⟨2⟩ ⟨1, 0⟩).1.status ∧
      (create_user [⟨⟨1⟩, "Bob", "bob@example.com", ⟨0, 0⟩⟩]
          ⟨"Carol", "bob@example.com"⟩ ⟨2⟩ ⟨1, 0⟩).1.status < 500) := by
  decide

/-- C4 amended: a uniqueness-conflict failure of the insert goes through the
same uniform `ActixError::from` conversion as every other store error,
producing the 500 server-class response rather than a distinct conflict
classification; the failed insert leaves the store unchanged, so any
previously stored user remains retrievable unchanged by get-by-id. -/
theorem create_conflict_uniform (st : Store) (p : NewUser) (fresh : Uuid) (now : Timestamp) :
    validate_new_user p = Except.ok () →
    st.any (fun u => u.email == p.email) = true →
    create_user st p fresh now = (actixErrorResp SqlxError.uniqueViolation, st) ∧
    (actixErrorResp SqlxError.uniqueViolation).status = 500 ∧
    ∀ u, storeGetById st u.id = some u →
      get_user (create_user st p fresh now).2 u.id =
        { status := 200, body := userResponseJson (userResponseOfUser u) } := by
  intro hok hconf
  have hq : createUserQuery st p.name p.email fresh now =
      Except.error SqlxError.uniqueViolation := by
    unfold createUserQuery
    simp [hconf]
  have hmain : create_user st p fresh now = (actixErrorResp SqlxError.uniqueViolation, st) := by
    unfold create_user
    rw [hok, hq]
  refine ⟨hmain, rfl, ?_⟩
  intro u hu
  rw [hmain]
  unfold get_user getUserQuery
  rw [hu]

/-- C4 witness: the concrete duplicate-email insert. -/
theorem create_conflict_uniform_witness :
    create_user [⟨⟨1⟩, "Bob", "bob@example.com", ⟨0, 0⟩⟩]
        ⟨"Carol", "bob@example.com"⟩ ⟨2⟩ ⟨1, 0⟩ =
      (actixErrorResp SqlxError.uniqueViolation, [⟨⟨1⟩, "Bob", "bob@example.com", ⟨0, 0⟩⟩]) :=
  (create_conflict_uniform [⟨⟨1⟩, "Bob", "bob@example.com", ⟨0, 0⟩⟩]
    ⟨"Carol", "bob@example.com"⟩ ⟨2⟩ ⟨1, 0⟩ (by decide) (by decide)).1

/-- C1: a request to any of the three `/users` routes is forwarded to the
matched handler exactly when its `Authorization` header decodes to
`"Bearer <token>"` with the token equal to the built-in `"test-token"` or to
the configured `AUTH_TOKEN` override; in every other case the gate answers 401
with the `unauthorized` body, whatever inner handler is wrapped — the
downstream handler never runs — and the store state is returned unchanged. -/
theorem auth_gate_forwarding (env : Option String) (req : UsersRequest) (st : Store)
    (fresh : Uuid) (now : Timestamp) :
    (authDecisionReq req env = true →
      usersService env req st fresh now = dispatch req.endpoint st fresh now) ∧
    (authDecisionReq req env = false →
      (∀ inner, authGuardCall env inner req st = (unauthorizedResp, st)) ∧
      usersService env req st fresh now = (unauthorizedResp, st)) ∧
    (authDecisionReq req env = true ↔
      ∃ s tok, req.authHeader = some (HeaderValue.valid s) ∧ s.data = bearerPat ++ tok ∧
        (tok = testToken ∨ ∃ e, env = some e ∧ e.data = tok)) := by
  refine ⟨?_, ?_, ?_⟩
  · intro h
    simp [usersService, authGuardCall, h]
  · intro h
    constructor
    · intro inner
      simp [authGuardCall, h]
    · simp [usersService, authGuardCall, h]
  · unfold authDecisionReq authHeaderOk
    cases hh : req.authHeader with
    | none => simp
    | some hv =>
      cases hv with
      | invalid => simp [HeaderValue.toStr]
      | valid s => simp [HeaderValue.toStr, strTokenOk_iff]

/-- C1 witness: the built-in token is forwarded, a wrong token short-circuits
to 401 with state unchanged. -/
theorem auth_gate_forwarding_witness :
    usersService none ⟨Endpoint.listEp, some (HeaderValue.valid "Bearer test-token")⟩ [] ⟨0⟩ ⟨0, 0⟩ =
      dispatch Endpoint.listEp [] ⟨0⟩ ⟨0, 0⟩ ∧
    usersService none ⟨Endpoint.listEp, some (HeaderValue.valid "Bearer wrong")⟩ [] ⟨0⟩ ⟨0, 0⟩ =
      (unauthorizedResp, []) :=
  ⟨(auth_gate_forwarding none ⟨Endpoint.listEp, some (HeaderValue.valid "Bearer test-token")⟩
      [] ⟨0⟩ ⟨0, 0⟩).1 (by decide),
    ((auth_gate_forwarding none ⟨Endpoint.listEp, some (HeaderValue.valid "Bearer wrong")⟩
      [] ⟨0⟩ ⟨0, 0⟩).2.1 (by decide)).2⟩

/-- C9 counterexample: the middleware reads `AUTH_TOKEN` from the process
environment during each call, so the very same request is accepted under one
call-time environment and rejected under another — the decision is not fixed
by any construction-time configuration. -/
theorem auth_env_counterexample :
    authDecisionReq ⟨Endpoint.listEp, some (HeaderValue.valid "Bearer sekrit")⟩
        (some "sekrit") = true ∧
    authDecisionReq ⟨Endpoint.listEp, some (HeaderValue.valid "Bearer sekrit")⟩ none = false := by
  constructor
  · decide
  · decide

/-- C9 amended: the accept/reject decision is a function of the Authorization
header and the call-time value of `AUTH_TOKEN` alone: it ignores the matched
route entirely; a header carrying the fixed literal token is accepted under
every environment; and two evaluations of the same request can disagree only
when the header carries a bearer token other than the fixed literal — the
token the middleware compares against the environment value it reads ad hoc
inside request handling. -/
theorem auth_env_dependence :
    (∀ (e1 e2 : Endpoint) (hdr : Option HeaderValue) (env : Option String),
      authDecisionReq ⟨e1, hdr⟩ env = authDecisionReq ⟨e2, hdr⟩ env) ∧
    (∀ (s : String) (env : Option String), s.data = bearerPat ++ testToken →
      strTokenOk s env = true) ∧
    (∀ (hdr : Option HeaderValue) (env1 env2 : Option String) (e : Endpoint),
      authDecisionReq ⟨e, hdr⟩ env1 ≠ authDecisionReq ⟨e, hdr⟩ env2 →
      ∃ s tok, hdr = some (HeaderValue.valid s) ∧ s.data = bearerPat ++ tok ∧
        tok ≠ testToken) := by
  refine ⟨fun _ _ _ _ => rfl, ?_, ?_⟩
  · intro s env hs
    exact (strTokenOk_iff s env).mpr ⟨testToken, hs, Or.inl rfl⟩
  · intro hdr env1 env2 e hne
    cases hdr with
    | none => exact absurd rfl hne
    | some hv =>
      cases hv with
      | invalid => exact absurd rfl hne
      | valid s =>
        have hd : ∀ env, authDecisionReq ⟨e, some (HeaderValue.valid s)⟩ env =
            strTokenOk s env := fun _ => rfl
        cases hpre : startsWithChars s.data bearerPat with
        | false =>
          have hf : ∀ env, strTokenOk s env = false := by
            intro env
            unfold strTokenOk
            simp [hpre]
          rw [hd, hd, hf, hf] at hne
          exact absurd rfl hne
        | true =>
          obtain ⟨t, ht⟩ := (startsWithChars_iff _ _).mp hpre
          by_cases htt : t = testToken
          · have hall : ∀ env, strTokenOk s env = true := fun env =>
              (strTokenOk_iff s env).mpr ⟨t, ht, Or.inl htt⟩
            rw [hd, hd, hall, hall] at hne
            exact absurd rfl hne
          · exact ⟨s, t, rfl, ht, htt⟩

/-- C9 witness: the fixed token is env-independent at a concrete header, and a
concrete env-dependent disagreement exhibits a non-literal bearer token. -/
theorem auth_env_dependence_witness :
    strTokenOk "Bearer test-token" (some "other") = true ∧
    ∃ s tok,
      (some (HeaderValue.valid "Bearer sekrit") : Option HeaderValue) =
        some (HeaderValue.valid s) ∧
      s.data = bearerPat ++ tok ∧ tok ≠ testToken :=
  ⟨auth_env_dependence.2.1 "Bearer test-token" (some "other") (by decide),
    auth_env_dependence.2.2 (some (HeaderValue.valid "Bearer sekrit")) (some "sekrit") none
      Endpoint.listEp (by decide)⟩

end Swarmussy
